import Mathlib

/-!
Verification of the antiSMASH module result lifecycle and resume protocol.

The development shallowly embeds the two provided source files:

* `antismash/outputs/html/__init__.py` — the HTML output module
  (`is_enabled`, `check_prereqs`/`prepare_data`, `copy_template_dir`), embedded
  directly from the source over an explicit file-system state.
* `antismash/modules/smcog_trees/test/integration_smcogs.py` — the integration
  test of the smcog_trees module.  The smcog_trees module implementation itself
  (`SMCOGTreeResults`, `run_on_record`, `regenerate_previous_results`,
  `add_to_record`, `write_outputs`) and the pipeline driver are not among the
  provided sources, so they are modelled from the specification (each such
  definition carries a `Modelled from the spec:` doc comment).

File systems are modelled as finite lists of paths, a path being a list of
name components; directory permission bits are a `Nat` per directory.
-/

namespace Html

/-- Configuration object as consumed by the HTML output module.  The source
accesses `options.html_enabled`, `options.minimal`, `options.taxon` and
`options.output_dir`; other configuration fields are irrelevant to the
embedded functions but one (`cpus`) is kept so that dependence on exactly
the accessed fields is expressible. -/
structure ConfigType where
  html_enabled : Bool
  minimal : Bool
  taxon : String
  output_dir : List String
  cpus : Nat
deriving DecidableEq

/-- `is_enabled` from `antismash/outputs/html/__init__.py`:
`return options.html_enabled or not options.minimal`. -/
def is_enabled (options : ConfigType) : Bool :=
  options.html_enabled || !options.minimal

/-- `p` lies at or below directory `root` (component-wise path containment). -/
def isUnder : List String → List String → Bool
  | [], _ => true
  | _ :: _, [] => false
  | a :: as, b :: bs => a == b && isUnder as bs

/-- A file system: regular files as paths, directories as paths paired with
their permission mode bits. -/
structure FS where
  files : List (List String)
  dirs : List (List String × Nat)
deriving DecidableEq

/-- `stat.S_IRUSR | stat.S_IWUSR | stat.S_IXUSR` = 0o700. -/
def OWNER_RWX : Nat := 448

/-- `shutil.rmtree`: removes the directory and everything beneath it. -/
def rmtree (target : List String) (fs : FS) : FS :=
  { files := fs.files.filter (fun p => !(isUnder target p)),
    dirs := fs.dirs.filter (fun e => !(isUnder target e.1)) }

/-- The final loop of `copy_template_dir`: `os.chmod(output_dir, mode)`
followed by `os.walk(output_dir)` chmodding every subdirectory, i.e. every
directory at or below `output_dir` gets mode `OWNER_RWX`. -/
def chmodAllUnder (output_dir : List String) (dirs : List (List String × Nat)) :
    List (List String × Nat) :=
  dirs.map (fun e => if isUnder output_dir e.1 then (e.1, OWNER_RWX) else e)

/-- `copy_template_dir` from `antismash/outputs/html/__init__.py`.

`tmplFiles` are the relative paths of the files that end up copied out of the
module's read-only template directory (after any `pattern` filtering — the
template directory is installed data, so this list is the same on every call
with the same arguments), and `tmplDirs` the relative paths of copied
subdirectories with their source modes.  The embedding:
removes `output_dir/template` if present, copies the template content into it
(the creation mode of the target directory itself is written as 0 because the
subsequent chmod pass overwrites every directory under `output_dir`), then
sets `OWNER_RWX` on `output_dir` and every directory beneath it. -/
def copy_template_dir (tmplFiles : List (List String))
    (tmplDirs : List (List String × Nat)) (template : String)
    (output_dir : List String) (fs : FS) : FS :=
  let target := output_dir ++ [template]
  let cleaned := rmtree target fs
  { files := tmplFiles.map (fun rel => target ++ rel) ++ cleaned.files,
    dirs := chmodAllUnder output_dir
      ((target, 0) :: (tmplDirs.map (fun e => (target ++ e.1, e.2)) ++ cleaned.dirs)) }

theorem isUnder_append (root rel : List String) : isUnder root (root ++ rel) = true := by
  induction root with
  | nil => rfl
  | cons a as ih => simp [isUnder, ih]

theorem filter_not_under_map (t : List String) (tf : List (List String)) :
    (tf.map (fun rel => t ++ rel)).filter (fun p => !(isUnder t p)) = [] := by
  induction tf with
  | nil => rfl
  | cons a as ih => simp [List.filter_cons, isUnder_append, ih]

theorem filter_under_map (t : List String) (tf : List (List String)) :
    (tf.map (fun rel => t ++ rel)).filter (fun p => isUnder t p)
      = tf.map (fun rel => t ++ rel) := by
  induction tf with
  | nil => rfl
  | cons a as ih => simp [List.filter_cons, isUnder_append, ih]

theorem filter_under_filter_not (t : List String) (l : List (List String)) :
    ((l.filter (fun p => !(isUnder t p))).filter (fun p => isUnder t p)) = [] := by
  induction l with
  | nil => rfl
  | cons a as ih =>
    by_cases h : isUnder t a = true
    · simp [List.filter_cons, h, ih]
    · simp [List.filter_cons, h, List.filter_cons, ih]

theorem filter_not_under_idem (t : List String) (l : List (List String)) :
    ((l.filter (fun p => !(isUnder t p))).filter (fun p => !(isUnder t p)))
      = l.filter (fun p => !(isUnder t p)) := by
  induction l with
  | nil => rfl
  | cons a as ih =>
    by_cases h : isUnder t a = true
    · simp [List.filter_cons, h, ih]
    · simp [List.filter_cons, h, ih]

theorem copy_template_dir_files (tf : List (List String)) (td : List (List String × Nat))
    (template : String) (outd : List String) (fs : FS) :
    (copy_template_dir tf td template outd fs).files
      = tf.map (fun rel => (outd ++ [template]) ++ rel)
        ++ fs.files.filter (fun p => !(isUnder (outd ++ [template]) p)) := rfl

end Html

/-- **C9**: `is_enabled(options)` is a deterministic pure function of exactly the
two configuration fields `html_enabled` and `minimal`, returning
`options.html_enabled or (not options.minimal)`; in particular the module is
enabled for every configuration with minimal mode off, regardless of the
`html_enabled` flag. -/
theorem C9_is_enabled_two_fields :
    (∀ o : Html.ConfigType, Html.is_enabled o = (o.html_enabled || !o.minimal))
    ∧ (∀ o o' : Html.ConfigType, o.html_enabled = o'.html_enabled →
        o.minimal = o'.minimal → Html.is_enabled o = Html.is_enabled o')
    ∧ (∀ o : Html.ConfigType, o.minimal = false → Html.is_enabled o = true) := by
  refine ⟨fun o => rfl, fun o o' h1 h2 => ?_, fun o h => ?_⟩
  · simp [Html.is_enabled, h1, h2]
  · simp [Html.is_enabled, h]

/-- Witness for C9 at a concrete configuration (minimal off, html flag off). -/
theorem C9_is_enabled_two_fields_witness :
    Html.is_enabled ⟨false, false, "bacteria", ["out"], 1⟩ = true :=
  C9_is_enabled_two_fields.2.2 ⟨false, false, "bacteria", ["out"], 1⟩ rfl

/-- **C4**: calling `copy_template_dir` a second time yields the identical set
of files as calling it once, and after any call the files below the target
directory `output_dir/template` are exactly the template's files — any
pre-existing target directory was removed first, so stale artifacts never
accumulate. -/
theorem C4_copy_template_dir_idempotent_full_replacement
    (tf : List (List String)) (td : List (List String × Nat)) (template : String)
    (outd : List String) (fs : Html.FS) :
    (Html.copy_template_dir tf td template outd
        (Html.copy_template_dir tf td template outd fs)).files
      = (Html.copy_template_dir tf td template outd fs).files
    ∧ (Html.copy_template_dir tf td template outd fs).files.filter
        (fun p => Html.isUnder (outd ++ [template]) p)
      = tf.map (fun rel => (outd ++ [template]) ++ rel) := by
  constructor
  · rw [Html.copy_template_dir_files, Html.copy_template_dir_files,
      List.filter_append, Html.filter_not_under_map, Html.filter_not_under_idem,
      List.nil_append]
  · rw [Html.copy_template_dir_files, List.filter_append, Html.filter_under_map,
      Html.filter_under_filter_not, List.append_nil]

/-- **C10**: after any `copy_template_dir` call, every directory at or below
`output_dir` — not merely the one copied into — has permission bits
`S_IRUSR|S_IWUSR|S_IXUSR` (0o700). -/
theorem C10_chmod_entire_output_dir (tf : List (List String))
    (td : List (List String × Nat)) (template : String) (outd : List String)
    (fs : Html.FS) :
    ∀ e ∈ (Html.copy_template_dir tf td template outd fs).dirs,
      Html.isUnder outd e.1 = true → e.2 = Html.OWNER_RWX := by
  intro e he hunder
  unfold Html.copy_template_dir at he
  simp only [Html.chmodAllUnder, List.mem_map] at he
  obtain ⟨x, _, hxe⟩ := he
  by_cases h : Html.isUnder outd x.1 = true
  · rw [if_pos h] at hxe
    rw [← hxe]
  · rw [if_neg h] at hxe
    rw [← hxe] at hunder
    exact absurd hunder h

/-- Witness for C10: a directory belonging to another module
(`out/other`, previously mode 0o777) ends up with mode 0o700 after the css
template copy. -/
theorem C10_chmod_entire_output_dir_witness :
    ((["out", "other"], Html.OWNER_RWX) : List String × Nat).2 = Html.OWNER_RWX :=
  C10_chmod_entire_output_dir [] [] "css" ["out"] ⟨[], [(["out", "other"], 511)]⟩
    (["out", "other"], Html.OWNER_RWX) (by decide) (by decide)

namespace Html

/-- A file system with modification times: each entry is a file path paired
with its mtime; `now` is the current clock used for new writes. -/
structure TimedFS where
  entries : List (List String × Nat)
  now : Nat
deriving DecidableEq

/-- The module's own css directory (`path.get_full_path(__file__, "css")`). -/
def cssDir : List String := ["antismash", "outputs", "html", "css"]

/-- The three flavours hard-coded in `prepare_data`. -/
def flavours : List String := ["bacteria", "fungi", "plants"]

/-- `os.path.getmtime` on the modelled file system (none if absent). -/
def lookupMtime (fs : TimedFS) (p : List String) : Option Nat :=
  (fs.entries.find? (fun e => e.1 == p)).map (fun e => e.2)

/-- Membership of a path in the css directory. -/
def inCssDir (p : List String) : Bool := p.dropLast == cssDir

/-- One string leading another, on reversed character lists: the suffix test. -/
def charListLeads : List Char → List Char → Bool
  | [], _ => true
  | _ :: _, [] => false
  | a :: as, b :: bs => a == b && charListLeads as bs

/-- `suf` is a suffix of `s` (executable by kernel reduction). -/
def strEndsWith (s suf : String) : Bool :=
  charListLeads suf.data.reverse s.data.reverse

/-- The glob test of `glob.glob("*.scss")` on a path's final component. -/
def isScssName (p : List String) : Bool :=
  match p.getLast? with
  | some n => strEndsWith n ".scss"
  | none => false

/-- Modelled from the spec: `antismash.common.path.is_outdated` is not among
the provided sources; per its use here ("CSS files out of date, rebuilding")
a target set is outdated when some target file is missing or is older than
some source file. -/
def is_outdated (fs : TimedFS) (targets : List (List String))
    (sources : List (List String × Nat)) : Bool :=
  targets.any (fun t =>
    match lookupMtime fs t with
    | none => true
    | some mt => sources.any (fun s => mt < s.2))

/-- `built_files` of `prepare_data`: the three flavour css files. -/
def builtFiles : List (List String) := flavours.map (fun f => cssDir ++ [f ++ ".css"])

/-- `glob.glob("*.scss")` inside the css directory. -/
def scssSources (fs : TimedFS) : List (List String × Nat) :=
  fs.entries.filter (fun e => inCssDir e.1 && isScssName e.1)

/-- The rebuild condition of `prepare_data`. -/
def cssOutdated (fs : TimedFS) : Bool := is_outdated fs builtFiles (scssSources fs)

/-- `open(target, "w")`: (over)writes the file at the current clock. -/
def writeFile (fs : TimedFS) (p : List String) : TimedFS :=
  { fs with entries := (p, fs.now) :: fs.entries.filter (fun e => !(e.1 == p)) }

/-- `prepare_data` from `antismash/outputs/html/__init__.py`: when the built
css files are outdated with respect to the `.scss` sources, each flavour's
css is recompiled and written (the compiled stylesheet text itself is opaque
and not modelled beyond the file write); returns `none` when the
`assert os.path.exists(source)` fails, and otherwise the (always empty) error
list together with the resulting file system. -/
def prepare_data (fs : TimedFS) : Option (List String × TimedFS) :=
  if cssOutdated fs then
    if flavours.all (fun f => (lookupMtime fs (cssDir ++ [f ++ ".scss"])).isSome) then
      some ([], flavours.foldl (fun st f => writeFile st (cssDir ++ [f ++ ".css"])) fs)
    else none
  else some ([], fs)

/-- `check_prereqs` from the source: `return prepare_data()`; the options are
ignored. -/
def check_prereqs (_options : ConfigType) (fs : TimedFS) :
    Option (List String × TimedFS) :=
  prepare_data fs

/-- A configuration value for concrete instantiations. -/
def cfgEx : ConfigType := ⟨true, false, "bacteria", ["out"], 1⟩

/-- A state in which the scss sources exist but the built css files do not,
so `prepare_data` rebuilds. -/
def fsOutdatedEx : TimedFS :=
  { entries := [(cssDir ++ ["bacteria.scss"], 5), (cssDir ++ ["fungi.scss"], 5),
      (cssDir ++ ["plants.scss"], 5)],
    now := 10 }

/-- A state in which every built css file is newer than every scss source. -/
def fsUpToDateEx : TimedFS :=
  { entries := [(cssDir ++ ["bacteria.scss"], 5), (cssDir ++ ["fungi.scss"], 5),
      (cssDir ++ ["plants.scss"], 5), (cssDir ++ ["bacteria.css"], 9),
      (cssDir ++ ["fungi.css"], 9), (cssDir ++ ["plants.css"], 9)],
    now := 10 }

end Html

/-- Counterexample to **C6** as stated: invoking `check_prereqs` on a state
whose built css files are missing writes the three css files — a file-system
side effect — so the returned state differs from the input state. -/
theorem C6_check_prereqs_counterexample :
    (Html.check_prereqs Html.cfgEx Html.fsOutdatedEx).map (fun r => r.2)
      ≠ some Html.fsOutdatedEx := by decide

/-- **C6 (amended)**: `check_prereqs` returns only a list of error strings
(always the empty list), and performs no file-system side effect whenever the
module's built CSS files are up to date with respect to their `.scss`
sources. -/
theorem C6_check_prereqs_amended (o : Html.ConfigType) (fs : Html.TimedFS)
    (errs : List String) (fs2 : Html.TimedFS)
    (h : Html.check_prereqs o fs = some (errs, fs2)) :
    errs = [] ∧ (Html.cssOutdated fs = false → fs2 = fs) := by
  unfold Html.check_prereqs Html.prepare_data at h
  by_cases hout : Html.cssOutdated fs = true
  · rw [if_pos hout] at h
    by_cases hsrc : Html.flavours.all
        (fun f => (Html.lookupMtime fs (Html.cssDir ++ [f ++ ".scss"])).isSome) = true
    · rw [if_pos hsrc] at h
      have h2 := Option.some.inj h
      exact ⟨(congrArg Prod.fst h2).symm, fun hfalse => absurd hout (by simp [hfalse])⟩
    · rw [if_neg hsrc] at h
      cases h
  · rw [if_neg hout] at h
    have h2 := Option.some.inj h
    exact ⟨(congrArg Prod.fst h2).symm, fun _ => (congrArg Prod.snd h2).symm⟩

/-- Witness for the amended C6 at a concrete up-to-date state. -/
theorem C6_check_prereqs_amended_witness :
    ([] : List String) = []
    ∧ (Html.cssOutdated Html.fsUpToDateEx = false →
        Html.fsUpToDateEx = Html.fsUpToDateEx) :=
  C6_check_prereqs_amended Html.cfgEx Html.fsUpToDateEx [] Html.fsUpToDateEx (by decide)

namespace Smcogs

/-- Modelled from the spec: the record's biological data model is out of scope
(§1); a CDS feature carries its name, an optional smcogs classification put
there by the earlier gene-functions stage, and the tree annotation that
`add_to_record` attaches. -/
structure CDS where
  name : String
  smcogClass : Option String
  tree : Option String
deriving DecidableEq

/-- Modelled from the spec: a Record is an opaque, identifiable unit of input
data (stable identity) holding CDS features; mutated in place only through a
result's `add_to_record`. -/
structure Record where
  id : String
  cdss : List CDS
deriving DecidableEq

/-- Modelled from the spec: `SMCOGTreeResults`, the serializable outcome of the
smcog_trees module on one record — a mapping from CDS name to its constructed
phylogenetic tree (an opaque string), plus the producing record's identity. -/
structure SMCOGTreeResults where
  record_id : String
  trees : List (String × String)
deriving DecidableEq

/-- Modelled from the spec: the JSON payload a result serializes to — a
complete, canonical representation carrying a schema version, the record
identity and the tree mapping. -/
structure Payload where
  schema_version : Nat
  record_id : String
  trees : List (String × String)
deriving DecidableEq

/-- Payload schema version of this module. -/
def SCHEMA_VERSION : Nat := 1

/-- Modelled from the spec: `to_json` — canonical, deterministic serialization
of a result. -/
def to_json (r : SMCOGTreeResults) : Payload :=
  ⟨SCHEMA_VERSION, r.record_id, r.trees⟩

/-- Modelled from the spec: `SMCOGTreeResults.from_json` — reconstruction from
a payload, failing (`none`, the `MalformedPayload` outcome) when the payload
is structurally invalid (wrong schema), identifies a different record, or
references record entities (CDS names) no longer present. -/
def from_json (p : Payload) (record : Record) : Option SMCOGTreeResults :=
  if p.schema_version == SCHEMA_VERSION && p.record_id == record.id
      && p.trees.all (fun t => record.cdss.any (fun c => c.name == t.1)) then
    some ⟨p.record_id, p.trees⟩
  else none

/-- Modelled from the spec: `run_on_record` — fresh execution builds one tree
per smcogs-classified CDS with an opaque tree builder `build` (the
phylogenetic tree construction algorithm itself is out of scope, §1). -/
def run_on_record (build : String → String) (record : Record) : SMCOGTreeResults :=
  ⟨record.id,
    record.cdss.filterMap (fun c => c.smcogClass.map (fun _ => (c.name, build c.name)))⟩

/-- Modelled from the spec: `regenerate_previous_results` — reconstructs a
result from a previously serialized payload by validation alone; it receives
no tree builder, so recomputation of the analysis is impossible by
construction. -/
def regenerate_previous_results (p : Payload) (record : Record)
    (_options : Html.ConfigType) : Option SMCOGTreeResults :=
  from_json p record

/-- The tree recorded for a given CDS name, if any. -/
def lookupTree (r : SMCOGTreeResults) (n : String) : Option String :=
  (r.trees.find? (fun t => t.1 == n)).map (fun t => t.2)

/-- The per-CDS application step of `add_to_record`: attach the computed tree
to the feature when one exists for its name. -/
def annotate (r : SMCOGTreeResults) (c : CDS) : CDS :=
  match lookupTree r c.name with
  | some t => { c with tree := some t }
  | none => c

/-- Modelled from the spec: `add_to_record` — applies the findings onto the
record's in-memory state. -/
def add_to_record (r : SMCOGTreeResults) (record : Record) : Record :=
  { record with cdss := record.cdss.map (annotate r) }

/-- Modelled from the spec: `write_outputs` — the only operation permitted to
touch the file system: it (re)creates the module's artifacts (one `.png` per
tree) in its dedicated `smcogs` subdirectory of the output directory, first
clearing any stale artifacts there. -/
def write_outputs (r : SMCOGTreeResults) (output_dir : List String)
    (fs : List (List String)) : List (List String) :=
  r.trees.map (fun t => (output_dir ++ ["smcogs"]) ++ [t.1 ++ ".png"])
    ++ fs.filter (fun p => !(Html.isUnder (output_dir ++ ["smcogs"]) p))

/-- Modelled from the spec: the full dotted module name keying archive
entries. -/
def MODULE_NAME : String := "antismash.modules.smcog_trees"

/-- Modelled from the spec: the Results Archive — record identity mapped to
(module dotted name mapped to serialized payload). -/
abbrev Archive := List (String × List (String × Payload))

/-- Record-identity lookup in the archive. -/
def lookupRecordEntry (a : Archive) (rid : String) :
    Option (List (String × Payload)) :=
  (a.find? (fun e => e.1 == rid)).map (fun e => e.2)

/-- Module-name lookup inside one record's archive entry (an absent module
key simply yields `none`, never an error). -/
def lookupModulePayload (entry : List (String × Payload)) (m : String) :
    Option Payload :=
  (entry.find? (fun e => e.1 == m)).map (fun e => e.2)

/-- Payload lookup by record identity and full dotted module name. -/
def lookupArchive (a : Archive) (rid m : String) : Option Payload :=
  match lookupRecordEntry a rid with
  | some entry => lookupModulePayload entry m
  | none => none

/-- Modelled from the spec: the driver runs the module fresh on every record
and persists one archive entry per record, keyed by record identity and
mapping the module's full dotted name to its serialized payload. -/
def runAndArchive (build : String → String) (records : List Record) : Archive :=
  records.map (fun rec => (rec.id, [(MODULE_NAME, to_json (run_on_record build rec))]))

/-- The world a (record, module) pairing acts on: the output file system, the
record, and the module's result slot. -/
structure World where
  fs : List (List String)
  record : Record
  result : Option SMCOGTreeResults
  options : Html.ConfigType
deriving DecidableEq

/-- A concrete stand-in for the opaque tree builder, used for concrete runs. -/
def treeOf (n : String) : String := "nwk_" ++ n

/-- Modelled from the spec: the driver-level lifecycle actions for one
(record, module) pairing — fresh execution, regeneration from a payload,
application onto the record, and the explicit deferred output write. -/
inductive Action where
  | runFresh : Action
  | regen : Payload → Action
  | applyResult : Action
  | writeOut : List String → Action
deriving DecidableEq

/-- One lifecycle step.  Only `writeOut` touches the file system. -/
def exec : Action → World → World
  | .runFresh, w => { w with result := some (run_on_record treeOf w.record) }
  | .regen p, w => { w with result := regenerate_previous_results p w.record w.options }
  | .applyResult, w =>
    { w with record := match w.result with
        | some r => add_to_record r w.record
        | none => w.record }
  | .writeOut d, w =>
    { w with fs := match w.result with
        | some r => write_outputs r d w.fs
        | none => w.fs }

/-- A sequence of lifecycle steps. -/
def execList (acts : List Action) (w : World) : World :=
  acts.foldl (fun st a => exec a st) w

/-- Whether an action is the explicit output write. -/
def isWriteAction : Action → Bool
  | .writeOut _ => true
  | _ => false

theorem from_json_to_json (r : SMCOGTreeResults) (record : Record)
    (hid : r.record_id = record.id)
    (hmem : r.trees.all (fun t => record.cdss.any (fun c => c.name == t.1)) = true) :
    from_json (to_json r) record = some ⟨r.record_id, r.trees⟩ := by
  unfold from_json to_json
  simp [hid, hmem]

theorem run_trees_in_record (build : String → String) (record : Record) :
    (run_on_record build record).trees.all
      (fun t => record.cdss.any (fun c => c.name == t.1)) = true := by
  rw [List.all_eq_true]
  intro t ht
  unfold run_on_record at ht
  simp only [List.mem_filterMap] at ht
  obtain ⟨c, hc, hfc⟩ := ht
  cases hcl : c.smcogClass with
  | none => rw [hcl] at hfc; cases hfc
  | some s =>
    rw [hcl] at hfc
    have hteq : t = (c.name, build c.name) := (Option.some.inj hfc).symm
    rw [List.any_eq_true]
    exact ⟨c, hc, by rw [hteq]; exact beq_self_eq_true c.name⟩

theorem annotate_idem (r : SMCOGTreeResults) (c : CDS) :
    annotate r (annotate r c) = annotate r c := by
  cases h : lookupTree r c.name with
  | none => simp [annotate, h]
  | some t => simp [annotate, h]

theorem lookupArchive_cons_self (rid : String) (entry : List (String × Payload))
    (a : Archive) (m : String) :
    lookupArchive ((rid, entry) :: a) rid m = lookupModulePayload entry m := by
  unfold lookupArchive lookupRecordEntry
  rw [List.find?_cons_of_pos _ (by simp)]
  rfl

theorem lookupArchive_cons_ne (x : String × List (String × Payload)) (a : Archive)
    (rid m : String) (h : (x.1 == rid) = false) :
    lookupArchive (x :: a) rid m = lookupArchive a rid m := by
  unfold lookupArchive lookupRecordEntry
  rw [List.find?_cons_of_neg _ (by simp [h])]

theorem lookupModulePayload_cons_self (m : String) (pl : Payload)
    (rest : List (String × Payload)) :
    lookupModulePayload ((m, pl) :: rest) m = some pl := by
  unfold lookupModulePayload
  rw [List.find?_cons_of_pos _ (by simp)]
  rfl

theorem lookupModulePayload_cons_ne (m m' : String) (pl : Payload)
    (rest : List (String × Payload)) (h : (m == m') = false) :
    lookupModulePayload ((m, pl) :: rest) m' = lookupModulePayload rest m' := by
  unfold lookupModulePayload
  rw [List.find?_cons_of_neg _ (by simp [h])]

/-- The nisin input record of the integration test, with its seven
smcogs-classified CDS features (and one unclassified one).  Modelled from the
spec: the fixed input record for which the module produces exactly 7 trees. -/
def nisinRecord : Record :=
  ⟨"nisin",
    [⟨"nisA", none, none⟩,
     ⟨"nisB", some "SMCOG1155", none⟩,
     ⟨"nisC", some "SMCOG1030", none⟩,
     ⟨"nisT", some "SMCOG1000", none⟩,
     ⟨"nisI", some "SMCOG1011", none⟩,
     ⟨"nisP", some "SMCOG1075", none⟩,
     ⟨"nisR", some "SMCOG1008", none⟩,
     ⟨"nisK", some "SMCOG1003", none⟩]⟩

/-- Output directory of the scenario run. -/
def outDirEx : List String := ["out"]

/-- The module's dedicated artifact subdirectory in the scenario run. -/
def smcogsDirEx : List String := ["out", "smcogs"]

/-- The files of `fs` at or below directory `d`. -/
def filesUnder (d : List String) (fs : List (List String)) : List (List String) :=
  fs.filter (fun p => Html.isUnder d p)

/-- `shutil.rmtree` on the plain file list. -/
def rmtreeFiles (d : List String) (fs : List (List String)) : List (List String) :=
  fs.filter (fun p => !(Html.isUnder d p))

/-- The fresh result of the scenario run on the nisin record. -/
def scenarioRun : SMCOGTreeResults := run_on_record treeOf nisinRecord

/-- The archive persisted at the end of the scenario run. -/
def scenarioArchive : Archive := runAndArchive treeOf [nisinRecord]

/-- File system after the scenario run's explicit output write (empty
directory before). -/
def scenarioFS1 : List (List String) := write_outputs scenarioRun outDirEx []

/-- File system after the test deletes the module's artifact subdirectory. -/
def scenarioFS2 : List (List String) := rmtreeFiles smcogsDirEx scenarioFS1

/-- The payload a resumed run finds in the archive under the record identity
and the module's full dotted name. -/
def scenarioPayload : Option Payload := lookupArchive scenarioArchive "nisin" MODULE_NAME

/-- The result reconstructed from the archived payload (no recomputation). -/
def scenarioRegen : Option SMCOGTreeResults :=
  match scenarioPayload with
  | some p => regenerate_previous_results p nisinRecord Html.cfgEx
  | none => none

/-- File system after calling the explicit write on the regenerated result. -/
def scenarioFS3 : List (List String) :=
  match scenarioRegen with
  | some r => write_outputs r outDirEx scenarioFS2
  | none => scenarioFS2

end Smcogs

/-- **C8**: the persisted archive is keyed by record identity, each record's
entry mapping the producing module's full dotted name
(`antismash.modules.smcog_trees`) to that module's serialized payload, so a
resumed run can look a payload up by record identity and dotted module name
(records with other identities do not interfere, and a module name absent
from the entry yields `none`, not an error). -/
theorem C8_archive_keyed_by_record_and_module (build : String → String)
    (pre post : List Smcogs.Record) (rec : Smcogs.Record)
    (hpre : pre.all (fun r => r.id != rec.id) = true) :
    Smcogs.lookupArchive (Smcogs.runAndArchive build (pre ++ rec :: post)) rec.id
        Smcogs.MODULE_NAME
      = some (Smcogs.to_json (Smcogs.run_on_record build rec))
    ∧ Smcogs.lookupArchive (Smcogs.runAndArchive build (pre ++ rec :: post)) rec.id
        "antismash.modules.other"
      = none := by
  induction pre with
  | nil =>
    constructor
    · rw [List.nil_append, Smcogs.runAndArchive, List.map_cons,
        Smcogs.lookupArchive_cons_self, Smcogs.lookupModulePayload_cons_self]
    · rw [List.nil_append, Smcogs.runAndArchive, List.map_cons,
        Smcogs.lookupArchive_cons_self,
        Smcogs.lookupModulePayload_cons_ne _ _ _ _ (by decide)]
      rfl
  | cons p pre ih =>
    have hp : (p.id == rec.id) = false := by
      have hmem := (List.all_eq_true.mp hpre) p (List.mem_cons_self p pre)
      simpa [bne] using hmem
    have hrest : pre.all (fun r => r.id != rec.id) = true := by
      rw [List.all_eq_true]
      intro x hx
      exact (List.all_eq_true.mp hpre) x (List.mem_cons_of_mem p hx)
    have ih2 := ih hrest
    rw [List.cons_append, Smcogs.runAndArchive, List.map_cons,
      Smcogs.lookupArchive_cons_ne _ _ _ _ hp,
      Smcogs.lookupArchive_cons_ne _ _ _ _ hp]
    exact ih2

/-- Witness for C8: a two-record archive, with the nisin record second. -/
theorem C8_archive_keyed_by_record_and_module_witness :
    Smcogs.lookupArchive
        (Smcogs.runAndArchive Smcogs.treeOf
          ([⟨"other", []⟩] ++ Smcogs.nisinRecord :: []))
        Smcogs.nisinRecord.id Smcogs.MODULE_NAME
      = some (Smcogs.to_json (Smcogs.run_on_record Smcogs.treeOf Smcogs.nisinRecord))
    ∧ Smcogs.lookupArchive
        (Smcogs.runAndArchive Smcogs.treeOf
          ([⟨"other", []⟩] ++ Smcogs.nisinRecord :: []))
        Smcogs.nisinRecord.id "antismash.modules.other"
      = none :=
  C8_archive_keyed_by_record_and_module Smcogs.treeOf [⟨"other", []⟩] []
    Smcogs.nisinRecord (by decide)

/-- **C5**: end-to-end scenario on the fixed nisin record — the fresh run
yields exactly 7 trees; writing outputs puts exactly 7 files in the module's
`smcogs` subdirectory; after deleting that subdirectory there are 0 files;
the result reconstructed from the saved archive (looked up by record identity
and dotted module name, never rerunning the analysis) still has exactly 7
trees while the file count stays 0; calling the write again makes exactly the
same 7 files reappear. -/
theorem C5_end_to_end_scenario :
    Smcogs.scenarioRun.trees.length = 7
    ∧ (Smcogs.filesUnder Smcogs.smcogsDirEx Smcogs.scenarioFS1).length = 7
    ∧ (Smcogs.filesUnder Smcogs.smcogsDirEx Smcogs.scenarioFS2).length = 0
    ∧ Smcogs.scenarioRegen.map (fun r => r.trees.length) = some 7
    ∧ (Smcogs.filesUnder Smcogs.smcogsDirEx Smcogs.scenarioFS3)
        = Smcogs.filesUnder Smcogs.smcogsDirEx Smcogs.scenarioFS1 := by
  decide


/-- **C1**: serialization round-trip — for every Result `r` of a record,
`from_json (to_json r)` succeeds and serializing the reconstruction yields the
identical payload: `SMCOGTreeResults.from_json(r.to_json(), record).to_json()
== r.to_json()`. -/
theorem C1_serialization_roundtrip (r : Smcogs.SMCOGTreeResults)
    (record : Smcogs.Record) (hid : r.record_id = record.id)
    (hmem : r.trees.all (fun t => record.cdss.any (fun c => c.name == t.1)) = true) :
    (Smcogs.from_json (Smcogs.to_json r) record).map Smcogs.to_json
      = some (Smcogs.to_json r) := by
  rw [Smcogs.from_json_to_json r record hid hmem]
  rfl

/-- **C2**: resume equivalence — for every record, every configuration and
every tree builder, regenerating from the payload of a fresh run returns a
result whose serialization equals that payload; `regenerate_previous_results`
takes no tree builder at all (the statement quantifies over all builders with
the regeneration untouched), so the reconstruction cannot recompute the
original analysis. -/
theorem C2_resume_equivalence (build : String → String) (record : Smcogs.Record)
    (options : Html.ConfigType) :
    (Smcogs.regenerate_previous_results
        (Smcogs.to_json (Smcogs.run_on_record build record)) record options).map
        Smcogs.to_json
      = some (Smcogs.to_json (Smcogs.run_on_record build record)) := by
  unfold Smcogs.regenerate_previous_results
  rw [Smcogs.from_json_to_json _ record rfl (Smcogs.run_trees_in_record build record)]
  rfl

/-- **C7**: application idempotence — re-applying a result to a record via
`add_to_record` leaves the record exactly as after the first application. -/
theorem C7_add_to_record_idempotent (r : Smcogs.SMCOGTreeResults)
    (record : Smcogs.Record) :
    Smcogs.add_to_record r (Smcogs.add_to_record r record)
      = Smcogs.add_to_record r record := by
  have hfun : Smcogs.annotate r ∘ Smcogs.annotate r = Smcogs.annotate r :=
    funext (Smcogs.annotate_idem r)
  unfold Smcogs.add_to_record
  rw [List.map_map, hfun]

/-- **C3**: no-write-on-reconstruct — any sequence of lifecycle steps that
never contains the explicit `writeOut` action (fresh construction,
regeneration from a payload, application to the record, in any combination)
leaves the output file system unchanged; files appear only through the
explicit write. -/
theorem C3_no_write_on_reconstruct (acts : List Smcogs.Action) (w : Smcogs.World)
    (h : ∀ a ∈ acts, Smcogs.isWriteAction a = false) :
    (Smcogs.execList acts w).fs = w.fs := by
  induction acts generalizing w with
  | nil => rfl
  | cons a as ih =>
    have ha := h a (List.mem_cons_self a as)
    have hrest : ∀ b ∈ as, Smcogs.isWriteAction b = false :=
      fun b hb => h b (List.mem_cons_of_mem a hb)
    have hstep : (Smcogs.exec a w).fs = w.fs := by
      cases a with
      | runFresh => rfl
      | regen p => rfl
      | applyResult => rfl
      | writeOut d => simp [Smcogs.isWriteAction] at ha
    calc (Smcogs.execList (a :: as) w).fs
        = (Smcogs.execList as (Smcogs.exec a w)).fs := rfl
      _ = (Smcogs.exec a w).fs := ih (Smcogs.exec a w) hrest
      _ = w.fs := hstep

/-- Witness for C1 at the fresh nisin result. -/
theorem C1_serialization_roundtrip_witness :
    (Smcogs.from_json (Smcogs.to_json Smcogs.scenarioRun) Smcogs.nisinRecord).map
        Smcogs.to_json
      = some (Smcogs.to_json Smcogs.scenarioRun) :=
  C1_serialization_roundtrip Smcogs.scenarioRun Smcogs.nisinRecord rfl (by decide)

/-- Witness for C3: a write-free trace (fresh run, regeneration, application)
starting from an empty output directory leaves the file system unchanged. -/
theorem C3_no_write_on_reconstruct_witness :
    (Smcogs.execList
        [Smcogs.Action.runFresh,
         Smcogs.Action.regen (Smcogs.to_json Smcogs.scenarioRun),
         Smcogs.Action.applyResult]
        ⟨[], Smcogs.nisinRecord, none, Html.cfgEx⟩).fs
      = (⟨[], Smcogs.nisinRecord, none, Html.cfgEx⟩ : Smcogs.World).fs :=
  C3_no_write_on_reconstruct
    [Smcogs.Action.runFresh,
     Smcogs.Action.regen (Smcogs.to_json Smcogs.scenarioRun),
     Smcogs.Action.applyResult]
    ⟨[], Smcogs.nisinRecord, none, Html.cfgEx⟩ (by decide)

